import Mathlib

/-!
Verification of the heterogeneous model-partitioning and pipelined-inference
engine (model-management subtree of the repository).  Each definition below is
a shallow embedding of a source function; the theorems settle the frozen
claims about the specification against those definitions.

Source files embedded here:
- server/model_management/model_manager.py (strategy selection, load_model)
- server/model_management/distribution_strategies/model_parallelism.py
- server/model_management/distribution_strategies/pipeline_parallelism.py
- server/model_management/distribution_strategies/layer_offloading.py
- server/model_management/inference.py (generate_response, _pipeline_generate)
- server/utils/device_detection.py (device kinds)
-/

/-! ## List-of-character utilities

The inference code post-processes decoded text with
generated_text.split("Assistant:", 1)[-1].strip().  We embed text as
List Char and translate the Python split/strip semantics directly.
-/

/-- leadsWith m s is true when the pattern m occurs at the very start of s
(the prefix test used when scanning for the first occurrence of a marker). -/
def leadsWith : List Char → List Char → Bool
  | [], _ => true
  | _ :: _, [] => false
  | p :: ps, c :: cs => p == c && leadsWith ps cs

/-- splitAfterFirst m s returns some t when s = a ++ m ++ t for the earliest
occurrence of m in s, and none when m does not occur in s.  This is the
semantics of the Python expression s.split(m, 1)[-1] restricted to the case
where the result differs from s. -/
def splitAfterFirst (m : List Char) : List Char → Option (List Char)
  | [] => if m.isEmpty then some [] else none
  | c :: rest =>
    if leadsWith m (c :: rest) then some ((c :: rest).drop m.length)
    else splitAfterFirst m rest

/-- pyStrip s removes leading and trailing whitespace, as Python str.strip(). -/
def pyStrip (s : List Char) : List Char :=
  ((s.dropWhile Char.isWhitespace).reverse.dropWhile Char.isWhitespace).reverse

/-- occursSub m s: does m occur as a contiguous substring of s. -/
def occursSub (m s : List Char) : Bool := (splitAfterFirst m s).isSome

/-- The assistant-turn marker used by InferenceEngine.generate_response. -/
def assistantMarker : List Char := "Assistant:".data

/-- Embeds the response-extraction step of InferenceEngine.generate_response:
generated_text.split("Assistant:", 1)[-1].strip(). -/
def extractResponse (s : List Char) : List Char :=
  pyStrip ((splitAfterFirst assistantMarker s).getD s)

/-! ## Device kinds and strategy selection

device_detection.py assigns main_device and secondary_device from the kinds
cuda, npu, hip, mps, cpu; its cpu-only branch logs "no accelerators
available", so every kind other than cpu is an accelerator.
ModelManager._apply_distribution_strategy selects among the three
distribution strategies by comparing the literal device strings.
-/

/-- The device kinds produced by device_detection.detect_devices. -/
inductive Dev
  | cuda
  | npu
  | hip
  | mps
  | cpu
deriving DecidableEq

/-- A device kind is an accelerator exactly when it is not the
general-purpose cpu (device_detection.py: the cpu-only branch logs
"no accelerators available"). -/
def isAccelerator (d : Dev) : Bool := d != Dev.cpu

/-- The three distribution strategies of distribution_strategies/. -/
inductive Strategy
  | modelParallelism
  | pipelineParallelism
  | layerOffloading
deriving DecidableEq

/-- Embeds the strategy-selection branch of
ModelManager._apply_distribution_strategy: the conditions compare the
main_device string with cuda and the secondary_device string with cpu. -/
def selectStrategy (mainDev secondaryDev : Dev) (modelSizeGb : ℚ) : Strategy :=
  if mainDev = Dev.cuda ∧ modelSizeGb > 8 then Strategy.modelParallelism
  else if mainDev = Dev.cuda ∧ secondaryDev = Dev.cpu then Strategy.layerOffloading
  else Strategy.pipelineParallelism

lemma isAccelerator_eq_false_iff (d : Dev) : isAccelerator d = false ↔ d = Dev.cpu := by
  cases d <;> simp [isAccelerator]

/-- C1 counterexample: the claim as stated quantifies over accelerator
primaries, but for the mps accelerator primary with a 12 GB estimate the
selector returns PipelineParallel, not ModelParallel (the code compares the
device string with cuda, not with accelerator-ness). -/
theorem selectStrategy_accelerator_claim_false :
    isAccelerator Dev.mps = true ∧ (12 : ℚ) > 8 ∧
    selectStrategy Dev.mps Dev.cpu 12 = Strategy.pipelineParallelism ∧
    Strategy.pipelineParallelism ≠ Strategy.modelParallelism := by
  refine ⟨rfl, by norm_num, ?_, by decide⟩
  simp [selectStrategy]

/-- C1 (amended): strategy selection follows the three-way decision table
with first-match-wins ordering over the literal device kinds: cuda primary
with estimate above 8 GB gives ModelParallel; otherwise cuda primary with a
general-purpose (non-accelerator, i.e. cpu) secondary gives LayerOffload;
otherwise PipelineParallel; and the result is always one of the three. -/
theorem selectStrategy_decision_table (mainDev secondaryDev : Dev) (gb : ℚ) :
    (mainDev = Dev.cuda ∧ gb > 8 →
      selectStrategy mainDev secondaryDev gb = Strategy.modelParallelism) ∧
    (mainDev = Dev.cuda ∧ ¬ gb > 8 ∧ isAccelerator secondaryDev = false →
      selectStrategy mainDev secondaryDev gb = Strategy.layerOffloading) ∧
    (¬ (mainDev = Dev.cuda ∧ gb > 8) ∧
        ¬ (mainDev = Dev.cuda ∧ isAccelerator secondaryDev = false) →
      selectStrategy mainDev secondaryDev gb = Strategy.pipelineParallelism) ∧
    (selectStrategy mainDev secondaryDev gb = Strategy.modelParallelism ∨
     selectStrategy mainDev secondaryDev gb = Strategy.layerOffloading ∨
     selectStrategy mainDev secondaryDev gb = Strategy.pipelineParallelism) := by
  refine ⟨?_, ?_, ?_, ?_⟩
  · intro h
    simp [selectStrategy, h]
  · rintro ⟨hm, hgb, hs⟩
    rw [isAccelerator_eq_false_iff] at hs
    simp [selectStrategy, hm, hgb, hs]
  · rintro ⟨h1, h2⟩
    rw [selectStrategy, if_neg h1, if_neg ?_]
    rintro ⟨hm, hs⟩
    exact h2 ⟨hm, (isAccelerator_eq_false_iff secondaryDev).mpr hs⟩
  · by_cases h1 : mainDev = Dev.cuda ∧ gb > 8
    · exact Or.inl (by simp [selectStrategy, h1])
    · by_cases h2 : mainDev = Dev.cuda ∧ secondaryDev = Dev.cpu
      · exact Or.inr (Or.inl (by rw [selectStrategy, if_neg h1, if_pos h2]))
      · exact Or.inr (Or.inr (by rw [selectStrategy, if_neg h1, if_neg h2]))

/-- C1 witness: at the concrete input cuda/cpu with estimate 12 GB the first
row of the decision table fires and ModelParallel is selected. -/
theorem selectStrategy_decision_table_witness :
    (Dev.cuda = Dev.cuda ∧ (12 : ℚ) > 8) ∧
    selectStrategy Dev.cuda Dev.cpu 12 = Strategy.modelParallelism :=
  ⟨⟨rfl, by norm_num⟩,
    (selectStrategy_decision_table Dev.cuda Dev.cpu 12).1 ⟨rfl, by norm_num⟩⟩

/-! ## Placement model for the distribution strategies

The strategies move modules between the two torch devices of the loaded
model.  We track placements abstractly by the two roles primary and
secondary (base_strategy.py binds primary_device and secondary_device from
the device config).
-/

/-- The two device roles a strategy places modules on. -/
inductive Loc
  | primary
  | secondary
deriving DecidableEq

/-- The shared split computation math.ceil(count * main_weight) used by
model_parallelism.py and pipeline_parallelism.py. -/
def splitIndex (n : ℕ) (w : ℚ) : ℕ := (⌈(n : ℚ) * w⌉).toNat

/-- The pipeline_stages dictionary built by
PipelineParallelismStrategy.apply for a GPT-style model: each stage records
the device it is moved to, and the two layer stages also record which
decoder blocks they hold. -/
structure PipelineStages where
  embeddingsDev : Loc
  posEmbeddingsDev : Loc
  earlyLayers : List ℕ
  earlyLayersDev : Loc
  lateLayers : List ℕ
  lateLayersDev : Loc
  outputHeadDev : Loc
deriving DecidableEq

/-- The decoder-style structure PipelineParallelismStrategy probes for:
model.transformer with its list h of decoder blocks (blocks are identified
by natural numbers). -/
structure GPTStack where
  h : List ℕ
deriving DecidableEq

/-- A model as seen by PipelineParallelismStrategy: it either exposes the
transformer attribute or it does not. -/
structure PPModel where
  transformer : Option GPTStack
deriving DecidableEq

/-- The observable result of PipelineParallelismStrategy.apply: the return
value of apply, the is_sharded flag, the stage map, and the device the whole
model was relocated to in the degraded path (none when the stages were moved
individually). -/
structure PPOutcome where
  success : Bool
  isSharded : Bool
  stages : Option PipelineStages
  wholeModelDev : Option Loc
deriving DecidableEq

/-- Embeds PipelineParallelismStrategy.apply: with a transformer attribute it
splits the decoder stack at math.ceil(len * main_weight), binding embeddings,
positional embeddings and the early blocks to the primary device and the late
blocks and ln_f output head to the secondary device; without one it moves the
whole model to the primary device and returns False with no stage map. -/
def pipelineParallelApply (m : PPModel) (w : ℚ) : PPOutcome :=
  match m.transformer with
  | some t =>
    { success := true
      isSharded := false
      stages := some
        { embeddingsDev := Loc.primary
          posEmbeddingsDev := Loc.primary
          earlyLayers := t.h.take (splitIndex t.h.length w)
          earlyLayersDev := Loc.primary
          lateLayers := t.h.drop (splitIndex t.h.length w)
          lateLayersDev := Loc.secondary
          outputHeadDev := Loc.secondary }
      wholeModelDev := none }
  | none =>
    { success := false
      isSharded := false
      stages := none
      wholeModelDev := some Loc.primary }

/-- C2: for every model exposing a decoder-style stack of blocks and every
primary weight, PipelineParallel binds embeddings, positional embeddings and
the first ceil(n * w) blocks to the primary device and the remaining blocks
and the output head to the secondary device; for 12 blocks and weight 1/2
each side holds 6 blocks. -/
theorem pipelineParallelApply_stage_map :
    (∀ (t : GPTStack) (w : ℚ), ∃ s : PipelineStages,
      (pipelineParallelApply ⟨some t⟩ w).stages = some s ∧
      s.embeddingsDev = Loc.primary ∧
      s.posEmbeddingsDev = Loc.primary ∧
      s.earlyLayers = t.h.take ((⌈(t.h.length : ℚ) * w⌉).toNat) ∧
      s.earlyLayersDev = Loc.primary ∧
      s.lateLayers = t.h.drop ((⌈(t.h.length : ℚ) * w⌉).toNat) ∧
      s.lateLayersDev = Loc.secondary ∧
      s.outputHeadDev = Loc.secondary) ∧
    (∃ s : PipelineStages,
      (pipelineParallelApply ⟨some ⟨List.range 12⟩⟩ (1 / 2)).stages = some s ∧
      s.earlyLayers.length = 6 ∧ s.lateLayers.length = 6) := by
  constructor
  · intro t w
    exact ⟨_, rfl, rfl, rfl, rfl, rfl, rfl, rfl, rfl⟩
  · refine ⟨_, rfl, ?_, ?_⟩ <;>
      simp [splitIndex] <;> norm_num <;> decide

/-- C8: for every model lacking the decoder-style structure, PipelineParallel
degrades by relocating the entire model to the primary device and returns an
outcome with no stage map; the apply call returns normally (with success
false), it does not raise. -/
theorem pipelineParallelApply_fallback (m : PPModel) (w : ℚ)
    (h : m.transformer = none) :
    pipelineParallelApply m w =
      { success := false, isSharded := false, stages := none,
        wholeModelDev := some Loc.primary } := by
  cases m with
  | mk tr => cases tr with
    | none => rfl
    | some t => simp at h

/-- C8 witness: the fallback outcome at a concrete structureless model. -/
theorem pipelineParallelApply_fallback_witness :
    (PPModel.mk none).transformer = none ∧
    pipelineParallelApply ⟨none⟩ 1 =
      { success := false, isSharded := false, stages := none,
        wholeModelDev := some Loc.primary } :=
  ⟨rfl, pipelineParallelApply_fallback ⟨none⟩ 1 rfl⟩

/-! ## Model parallelism (model_parallelism.py)

ModelParallelismStrategy.apply enumerates the top-level children of the
model, computes math.ceil(child_count * main_weight), and relocates each
child; a child whose .to call raises is logged and skipped.  We represent a
child by the Bool saying whether its relocation succeeds.
-/

/-- The observable result of ModelParallelismStrategy.apply: the returned
Bool, the is_sharded flag, the (absent) stage map, the device each child is
targeted at, and the device each child actually ended up on (none when the
relocation failed and was skipped). -/
structure MPOutcome where
  success : Bool
  isSharded : Bool
  stages : Option PipelineStages
  targets : List Loc
  placed : List (Option Loc)
deriving DecidableEq

/-- The per-child target of model parallelism: children below the split
index go to the primary device, the rest to the secondary device. -/
def mpTarget (k i : ℕ) : Loc := if i < k then Loc.primary else Loc.secondary

/-- Embeds ModelParallelismStrategy.apply over the list of relocation-success
flags of the top-level children. -/
def modelParallelApply (children : List Bool) (w : ℚ) : MPOutcome :=
  { success := true
    isSharded := true
    stages := none
    targets := (List.range children.length).map
      (fun i => mpTarget (splitIndex children.length w) i)
    placed := children.enum.map
      (fun p => if p.2 then some (mpTarget (splitIndex children.length w) p.1) else none) }

/-- C7: for every model and weight, ModelParallel targets the children below
ceil(n * w) at the primary device and the rest at the secondary device, and
on return reports is_sharded true, no stage map, and success, regardless of
which individual relocations succeeded. -/
theorem modelParallelApply_spec (children : List Bool) (w : ℚ) :
    (modelParallelApply children w).success = true ∧
    (modelParallelApply children w).isSharded = true ∧
    (modelParallelApply children w).stages = none ∧
    ∀ i, i < children.length →
      (modelParallelApply children w).targets[i]? =
        some (if i < (⌈(children.length : ℚ) * w⌉).toNat
              then Loc.primary else Loc.secondary) := by
  refine ⟨rfl, rfl, rfl, ?_⟩
  intro i hi
  simp [modelParallelApply, List.getElem?_map, List.getElem?_range hi, mpTarget, splitIndex]

/-- C7 witness: the spec example with 10 children and weight 0.85 targets
child 8 at the primary device (split index 9), also when some relocations
fail. -/
theorem modelParallelApply_spec_witness :
    8 < (List.replicate 10 true).length ∧
    (modelParallelApply (List.replicate 10 true) (17 / 20)).targets[8]? =
      some Loc.primary := by
  have h := (modelParallelApply_spec (List.replicate 10 true) (17 / 20)).2.2.2 8 (by decide)
  refine ⟨by decide, ?_⟩
  have hc : ⌈((List.replicate 10 true).length : ℚ) * (17 / 20)⌉ = 9 := by
    rw [Int.ceil_eq_iff]
    constructor <;> norm_num
  rw [h, hc]
  rfl

/-! ## Layer offloading (layer_offloading.py)

LayerOffloadingStrategy.apply first moves the whole model to the secondary
device, then moves back to the primary device every named sub-module whose
lowercased name contains attn, attention or self (a failing move is caught
and not counted), plus the input-embedding and output-embedding modules when
the model exposes them; it returns offload_count > 0.  Nothing else moves:
when the count is zero the model stays on the secondary device.
-/

/-- A named sub-module as seen by model.named_modules(), together with
whether its relocation to the primary device succeeds. -/
structure NamedModule where
  name : List Char
  relocatable : Bool
deriving DecidableEq

/-- The model shape LayerOffloadingStrategy.apply inspects: the named
sub-modules and whether get_input_embeddings / get_output_embeddings expose
modules to pin on the primary device. -/
structure OffloadModel where
  modules : List NamedModule
  hasInputEmbeddings : Bool
  hasOutputEmbeddings : Bool
deriving DecidableEq

/-- The attention-related name patterns of layer_offloading.py. -/
def attnPatterns : List (List Char) := ["attn".data, "attention".data, "self".data]

/-- Whether a sub-module name matches the attention patterns (substring test
against the lowercased name). -/
def nameMatchesAttn (name : List Char) : Bool :=
  attnPatterns.any (fun p => occursSub p (name.map Char.toLower))

/-- The sub-modules that are moved back to the primary device: those whose
name matches and whose relocation does not raise. -/
def offloadMoved (m : OffloadModel) : List (List Char) :=
  (m.modules.filter (fun md => nameMatchesAttn md.name && md.relocatable)).map
    (fun md => md.name)

/-- The offload_count computed by LayerOffloadingStrategy.apply. -/
def offloadCount (m : OffloadModel) : ℕ :=
  (m.modules.filter (fun md => nameMatchesAttn md.name && md.relocatable)).length
    + (if m.hasInputEmbeddings then 1 else 0)
    + (if m.hasOutputEmbeddings then 1 else 0)

/-- The observable result of LayerOffloadingStrategy.apply: the returned
Bool, the device the whole model was put on, the named sub-modules moved
back to the primary device, and whether the embedding/head modules were
pinned on the primary device. -/
structure OffloadOutcome where
  success : Bool
  base : Loc
  movedToPrimary : List (List Char)
  inputEmbOnPrimary : Bool
  outputEmbOnPrimary : Bool
deriving DecidableEq

/-- Embeds the non-raising path of LayerOffloadingStrategy.apply. -/
def layerOffloadApply (m : OffloadModel) : OffloadOutcome :=
  { success := decide (0 < offloadCount m)
    base := Loc.secondary
    movedToPrimary := offloadMoved m
    inputEmbOnPrimary := m.hasInputEmbeddings
    outputEmbOnPrimary := m.hasOutputEmbeddings }

/-- C6 counterexample: a model with a single sub-module named mlp and no
embedding or head modules relocates zero sub-modules, yet the outcome is the
all-on-secondary placement with the whole model still based on the secondary
device - the claimed whole-model-to-primary fallback does not fire. -/
theorem layerOffloadApply_all_on_secondary :
    offloadCount ⟨[⟨"mlp".data, true⟩], false, false⟩ = 0 ∧
    layerOffloadApply ⟨[⟨"mlp".data, true⟩], false, false⟩ =
      { success := false, base := Loc.secondary, movedToPrimary := [],
        inputEmbOnPrimary := false, outputEmbOnPrimary := false } ∧
    Loc.secondary ≠ Loc.primary := by
  refine ⟨by decide, by decide, by decide⟩

/-- C6 (amended): when zero sub-modules are relocated back to the primary
device, LayerOffload reports failure (returns false) and leaves the model
entirely on the secondary device; the whole-model-to-primary fallback fires
only on an exception, so an all-on-secondary placement is the outcome of
this path. -/
theorem layerOffloadApply_zero_count (m : OffloadModel)
    (h : offloadCount m = 0) :
    layerOffloadApply m =
      { success := false, base := Loc.secondary, movedToPrimary := [],
        inputEmbOnPrimary := false, outputEmbOnPrimary := false } := by
  have h0 := h
  rw [offloadCount] at h0
  have hfil :
      (m.modules.filter (fun md => nameMatchesAttn md.name && md.relocatable)).length = 0 := by
    omega
  have hin : (if m.hasInputEmbeddings then 1 else 0) = 0 := by omega
  have hout : (if m.hasOutputEmbeddings then 1 else 0) = 0 := by omega
  have hin' : m.hasInputEmbeddings = false := by
    by_cases hb : m.hasInputEmbeddings
    · simp [hb] at hin
    · simpa using hb
  have hout' : m.hasOutputEmbeddings = false := by
    by_cases hb : m.hasOutputEmbeddings
    · simp [hb] at hout
    · simpa using hb
  have hmoved : offloadMoved m = [] := by
    rw [offloadMoved, List.length_eq_zero.mp hfil]
    rfl
  rw [layerOffloadApply, hmoved, hin', hout', h]
  rfl

/-- C6 amended-claim witness: the zero-relocation model from the
counterexample indeed yields the failing all-on-secondary outcome. -/
theorem layerOffloadApply_zero_count_witness :
    offloadCount ⟨[⟨"mlp".data, true⟩], false, false⟩ = 0 ∧
    layerOffloadApply ⟨[⟨"mlp".data, true⟩], false, false⟩ =
      { success := false, base := Loc.secondary, movedToPrimary := [],
        inputEmbOnPrimary := false, outputEmbOnPrimary := false } :=
  ⟨by decide, layerOffloadApply_zero_count ⟨[⟨"mlp".data, true⟩], false, false⟩ (by decide)⟩

/-! ## Inference engine (inference.py)

InferenceEngine._pipeline_generate runs a while loop: while the running
sequence is shorter than max_length = 1024, it recomputes the stage
composition over the whole sequence, takes the argmax of the logits of the
last position, appends that token, and stops early when the token is the
end-of-sequence id.  We embed the stage composition plus lm_head at the last
position as an opaque function from the running sequence to the logit list,
and the loop as a fuel recursion whose fuel maxLen - length is exactly the
number of iterations the while condition still allows, so the fueled
function and the while loop agree (fuel runs out only when the while
condition is already false).
-/

/-- First-maximum scan used to embed torch.argmax over the logit list. -/
def argmaxAux : List ℚ → ℕ → ℕ → ℚ → ℕ
  | [], _, bi, _ => bi
  | x :: xs, i, bi, bv => if bv < x then argmaxAux xs (i + 1) i x else argmaxAux xs (i + 1) bi bv

/-- The index of the (first) largest logit: torch.argmax(dim = -1). -/
def argmaxIdx : List ℚ → ℕ
  | [] => 0
  | x :: xs => argmaxAux xs 1 0 x

/-- One pass of the decode loop body plus the loop control of
InferenceEngine._pipeline_generate.  ll cur is the logit list produced at
the last position by running embeddings, early layers, the cross-device
transfer, late layers, output head and lm_head over the sequence cur.  The
second component of the result counts executed loop iterations. -/
def pipelineGenerateAux (ll : List ℕ → List ℚ) (eosId maxLen : ℕ) :
    ℕ → List ℕ → List ℕ × ℕ
  | 0, cur => (cur, 0)
  | fuel + 1, cur =>
    if cur.length < maxLen then
      if argmaxIdx (ll cur) = eosId then (cur ++ [argmaxIdx (ll cur)], 1)
      else
        ((pipelineGenerateAux ll eosId maxLen fuel (cur ++ [argmaxIdx (ll cur)])).1,
          (pipelineGenerateAux ll eosId maxLen fuel (cur ++ [argmaxIdx (ll cur)])).2 + 1)
    else (cur, 0)

/-- Embeds InferenceEngine._pipeline_generate on input_ids (the non-raising
path): the while loop with max_length = maxLen, started with enough fuel for
every iteration the while condition can admit. -/
def pipelineGenerate (ll : List ℕ → List ℚ) (eosId maxLen : ℕ)
    (inputIds : List ℕ) : List ℕ × ℕ :=
  pipelineGenerateAux ll eosId maxLen (maxLen - inputIds.length) inputIds

/-- The sampling configuration the non-pipelined path passes to
model.generate: do_sample = True, top_p = 0.9, temperature = 0.6. -/
structure SamplingParams where
  doSample : Bool
  topP : ℚ
  temperature : ℚ

/-- Embeds InferenceEngine.generate_response (the non-raising path): the
prompt is tokenized and truncated to 1024 ids; with a stage map present the
custom pipelined loop runs (it receives neither the sampling parameters nor
the randomness); without one, model.generate runs with the fixed sampling
parameters and a source of randomness rng; the decoded output then goes
through the assistant-marker extraction. -/
def generateResponse (encode : String → List ℕ) (decode : List ℕ → List Char)
    (ll : List ℕ → List ℚ) (eosId : ℕ)
    (modelGenerate : List ℕ → SamplingParams → ℕ → List ℕ)
    (stages : Option Unit) (prompt : String) (rng : ℕ) : List Char :=
  extractResponse (decode
    (match stages with
     | some _ => (pipelineGenerate ll eosId 1024 ((encode prompt).take 1024)).1
     | none => modelGenerate ((encode prompt).take 1024) ⟨true, 9 / 10, 3 / 5⟩ rng))

lemma pipelineGenerateAux_spec (ll : List ℕ → List ℚ) (eosId maxLen : ℕ) :
    ∀ (fuel : ℕ) (cur : List ℕ), cur.length ≤ maxLen → maxLen ≤ cur.length + fuel →
      (pipelineGenerateAux ll eosId maxLen fuel cur).2 ≤ fuel ∧
      ((pipelineGenerateAux ll eosId maxLen fuel cur).1.length = maxLen ∨
        ∃ pre, (pipelineGenerateAux ll eosId maxLen fuel cur).1 = pre ++ [eosId]) := by
  intro fuel
  induction fuel with
  | zero =>
    intro cur h1 h2
    simp [pipelineGenerateAux]
    omega
  | succ f ih =>
    intro cur h1 h2
    by_cases hlt : cur.length < maxLen
    · rw [pipelineGenerateAux, if_pos hlt]
      by_cases heos : argmaxIdx (ll cur) = eosId
      · rw [if_pos heos]
        exact ⟨by omega, Or.inr ⟨cur, by rw [heos]⟩⟩
      · rw [if_neg heos]
        have hlen : (cur ++ [argmaxIdx (ll cur)]).length = cur.length + 1 := by
          simp
        have := ih (cur ++ [argmaxIdx (ll cur)]) (by omega) (by omega)
        dsimp only
        exact ⟨by omega, this.2⟩
    · rw [pipelineGenerateAux, if_neg hlt]
      dsimp only
      exact ⟨Nat.zero_le _, Or.inl (by omega)⟩

/-- C3: for every prompt, stage composition and end-of-sequence id, the
pipelined decode loop on the truncated prompt halts after at most 1024
iterations (the configured maximum length), and the returned sequence either
ends in the end-of-sequence id or has length exactly 1024. -/
theorem pipelineGenerate_halts (encode : String → List ℕ)
    (ll : List ℕ → List ℚ) (eosId : ℕ) (prompt : String) :
    (pipelineGenerate ll eosId 1024 ((encode prompt).take 1024)).2 ≤ 1024 ∧
    ((pipelineGenerate ll eosId 1024 ((encode prompt).take 1024)).1.length = 1024 ∨
      ∃ pre, (pipelineGenerate ll eosId 1024 ((encode prompt).take 1024)).1
        = pre ++ [eosId]) := by
  have hlen : ((encode prompt).take 1024).length ≤ 1024 := by
    simp [List.length_take]
  have h := pipelineGenerateAux_spec ll eosId 1024
    (1024 - ((encode prompt).take 1024).length) ((encode prompt).take 1024)
    hlen (by omega)
  exact ⟨le_trans h.1 (by omega), h.2⟩

lemma pipelineGenerateAux_extends (ll : List ℕ → List ℚ) (eosId maxLen : ℕ) :
    ∀ (fuel : ℕ) (cur : List ℕ),
      ∃ rest, (pipelineGenerateAux ll eosId maxLen fuel cur).1 = cur ++ rest := by
  intro fuel
  induction fuel with
  | zero => intro cur; exact ⟨[], by simp [pipelineGenerateAux]⟩
  | succ f ih =>
    intro cur
    by_cases hlt : cur.length < maxLen
    · rw [pipelineGenerateAux, if_pos hlt]
      by_cases heos : argmaxIdx (ll cur) = eosId
      · rw [if_pos heos]
        exact ⟨[argmaxIdx (ll cur)], rfl⟩
      · rw [if_neg heos]
        obtain ⟨rest, hrest⟩ := ih (cur ++ [argmaxIdx (ll cur)])
        exact ⟨argmaxIdx (ll cur) :: rest, by simp [hrest]⟩
    · rw [pipelineGenerateAux, if_neg hlt]
      exact ⟨[], by simp⟩

/-- C4: in every iteration of the pipelined decode loop the token appended
at the current position is exactly the argmax of the logits the stage
composition produces for the current sequence, and the pipelined branch of
generate_response is independent of the model.generate sampling routine and
of its randomness: two runs with different samplers and random sources
return the same text. -/
theorem pipelineGenerate_greedy_deterministic :
    (∀ (ll : List ℕ → List ℚ) (eosId maxLen : ℕ) (cur : List ℕ),
      cur.length < maxLen →
      (pipelineGenerate ll eosId maxLen cur).1[cur.length]? =
        some (argmaxIdx (ll cur))) ∧
    (∀ (encode : String → List ℕ) (decode : List ℕ → List Char)
       (ll : List ℕ → List ℚ) (eosId : ℕ)
       (mg1 mg2 : List ℕ → SamplingParams → ℕ → List ℕ)
       (prompt : String) (rng1 rng2 : ℕ),
      generateResponse encode decode ll eosId mg1 (some ()) prompt rng1 =
        generateResponse encode decode ll eosId mg2 (some ()) prompt rng2) := by
  constructor
  · intro ll eosId maxLen cur hlt
    rw [pipelineGenerate]
    obtain ⟨f, hf⟩ : ∃ f, maxLen - cur.length = f + 1 := ⟨maxLen - cur.length - 1, by omega⟩
    rw [hf, pipelineGenerateAux, if_pos hlt]
    by_cases heos : argmaxIdx (ll cur) = eosId
    · rw [if_pos heos]
      exact List.getElem?_concat_length cur (argmaxIdx (ll cur))
    · rw [if_neg heos]
      obtain ⟨rest, hrest⟩ :=
        pipelineGenerateAux_extends ll eosId maxLen f (cur ++ [argmaxIdx (ll cur)])
      have hsh : cur.length < (cur ++ [argmaxIdx (ll cur)]).length := by simp
      dsimp only
      rw [hrest, List.getElem?_append_left hsh]
      exact List.getElem?_concat_length _ _
  · intro encode decode ll eosId mg1 mg2 prompt rng1 rng2
    rfl

/-- C4 witness: with a single positive logit and end-of-sequence id 0, the
first loop iteration from the empty sequence appends token 0, the argmax of
the logits. -/
theorem pipelineGenerate_greedy_deterministic_witness :
    ([] : List ℕ).length < 1024 ∧
    (pipelineGenerate (fun _ => [(1 : ℚ)]) 0 1024 []).1[([] : List ℕ).length]? = some 0 := by
  have h := pipelineGenerate_greedy_deterministic.1 (fun _ => [(1 : ℚ)]) 0 1024 []
    (by decide)
  exact ⟨by decide, by rw [h]; rfl⟩

/-! ## Failure behaviour of generation (inference.py)

generate_response wraps its whole body in a try block whose except clause
logs and re-raises, so any exception escapes to the caller unchanged; the
only caught-and-recovered failures are those inside _pipeline_generate,
whose except clause moves the model back to the main device and reruns
model.generate there.  We inject failures through Except: the per-iteration
stage composition (embedding, early layers, cross-device transfer, late
layers, head) may fail, and so may the fallback model.generate call and the
tokenizer.
-/

/-- The failure sites of a generation request. -/
inductive GenErr
  | tokenization
  | forward
  | transfer
  | native
deriving DecidableEq

/-- The decode loop of _pipeline_generate with a failure-injectable step:
stepE cur produces the argmax token of the last position for the sequence
cur, or the exception its forward pass or cross-device transfer raised. -/
def pipelineLoopAuxE (stepE : List ℕ → Except GenErr ℕ) (eosId maxLen : ℕ) :
    ℕ → List ℕ → Except GenErr (List ℕ)
  | 0, cur => Except.ok cur
  | fuel + 1, cur =>
    if cur.length < maxLen then
      match stepE cur with
      | Except.error e => Except.error e
      | Except.ok t =>
        if t = eosId then Except.ok (cur ++ [t])
        else pipelineLoopAuxE stepE eosId maxLen fuel (cur ++ [t])
    else Except.ok cur

/-- The failure-injectable decode loop started with fuel for every iteration
the while condition can admit. -/
def pipelineLoopE (stepE : List ℕ → Except GenErr ℕ) (eosId maxLen : ℕ)
    (inputIds : List ℕ) : Except GenErr (List ℕ) :=
  pipelineLoopAuxE stepE eosId maxLen (maxLen - inputIds.length) inputIds

/-- Embeds _pipeline_generate including its except clause: a failure inside
the loop is caught and replaced by the result of the single-device
model.generate fallback (which may itself fail). -/
def pipelineGenerateWithFallback (stepE : List ℕ → Except GenErr ℕ)
    (eosId maxLen : ℕ) (inputIds : List ℕ)
    (fallbackGen : Except GenErr (List ℕ)) : Except GenErr (List ℕ) :=
  match pipelineLoopE stepE eosId maxLen inputIds with
  | Except.ok r => Except.ok r
  | Except.error _ => fallbackGen

/-- Embeds generate_response with failure injection: tokenization happens
first and its failure is re-raised by the except clause of
generate_response, not recovered; with a stage map present the pipelined
loop plus its fallback runs; the decoded output goes through the
assistant-marker extraction. -/
def generateResponseE (encodeE : String → Except GenErr (List ℕ))
    (decode : List ℕ → List Char)
    (stepE : List ℕ → Except GenErr ℕ) (eosId : ℕ)
    (stages : Option Unit) (fallbackGen nativeGen : Except GenErr (List ℕ))
    (prompt : String) : Except GenErr (List Char) :=
  match encodeE prompt with
  | Except.error e => Except.error e
  | Except.ok ids0 =>
    match (match stages with
           | some _ =>
             pipelineGenerateWithFallback stepE eosId 1024 (ids0.take 1024) fallbackGen
           | none => nativeGen) with
    | Except.error e => Except.error e
    | Except.ok outIds => Except.ok (extractResponse (decode outIds))

/-- C5 counterexample: a tokenization failure is not caught by the fallback
machinery - even with a stage map present and a fallback generator that
would succeed, generate propagates the tokenization error to the caller
instead of returning a text result. -/
theorem generateResponseE_tokenization_propagates :
    generateResponseE (fun _ => Except.error GenErr.tokenization) (fun _ => [])
      (fun _ => Except.ok 0) 0 (some ()) (Except.ok [0]) (Except.ok [0]) "p"
      = Except.error GenErr.tokenization := rfl

/-- C5 (amended): with a stage map present and tokenization succeeding,
failures raised inside the pipelined decode loop are caught and trigger the
single-device fallback: whenever the fallback succeeds, generate returns a
text result (never an exception); and when the loop fails and the fallback
also fails, the fallback error is surfaced to the caller.  Tokenization
failures, by contrast, occur before the loop and propagate (see the
counterexample). -/
theorem generateResponseE_fallback (encodeE : String → Except GenErr (List ℕ))
    (decode : List ℕ → List Char) (stepE : List ℕ → Except GenErr ℕ)
    (eosId : ℕ) (fallbackGen nativeGen : Except GenErr (List ℕ))
    (prompt : String) (ids0 : List ℕ)
    (henc : encodeE prompt = Except.ok ids0) :
    ((∃ r, fallbackGen = Except.ok r) →
      ∃ out, generateResponseE encodeE decode stepE eosId (some ()) fallbackGen
        nativeGen prompt = Except.ok out) ∧
    (∀ e e2, pipelineLoopE stepE eosId 1024 (ids0.take 1024) = Except.error e2 →
      fallbackGen = Except.error e →
      generateResponseE encodeE decode stepE eosId (some ()) fallbackGen
        nativeGen prompt = Except.error e) := by
  constructor
  · rintro ⟨r, hr⟩
    rcases hloop : pipelineLoopE stepE eosId 1024 (ids0.take 1024) with e | ok
    · refine ⟨extractResponse (decode r), ?_⟩
      simp [generateResponseE, henc, pipelineGenerateWithFallback, hloop, hr]
    · refine ⟨extractResponse (decode ok), ?_⟩
      simp [generateResponseE, henc, pipelineGenerateWithFallback, hloop]
  · intro e e2 hloop hfb
    simp [generateResponseE, henc, pipelineGenerateWithFallback, hloop, hfb]

/-- C5 witness: with an always-failing cross-device step and a succeeding
fallback, generate returns a text result. -/
theorem generateResponseE_fallback_witness :
    ((fun _ : String => (Except.ok [] : Except GenErr (List ℕ))) ""
      = (Except.ok [] : Except GenErr (List ℕ))) ∧
    ∃ out, generateResponseE (fun _ => Except.ok []) (fun _ => [])
      (fun _ => Except.error GenErr.transfer) 0 (some ())
      (Except.ok [0]) (Except.ok []) "" = Except.ok out :=
  ⟨rfl,
    (generateResponseE_fallback (fun _ => Except.ok []) (fun _ => [])
      (fun _ => Except.error GenErr.transfer) 0 (Except.ok [0]) (Except.ok [])
      "" [] rfl).1 ⟨[0], rfl⟩⟩

/-! ## Marker extraction (generate_response post-processing) -/

lemma leadsWith_iff (m : List Char) :
    ∀ s : List Char, leadsWith m s = true ↔ ∃ t, s = m ++ t := by
  induction m with
  | nil =>
    intro s
    simp [leadsWith]
  | cons p ps ih =>
    intro s
    cases s with
    | nil => simp [leadsWith]
    | cons c cs =>
      rw [leadsWith]
      simp only [Bool.and_eq_true, beq_iff_eq, ih cs, List.cons_append, List.cons.injEq]
      constructor
      · rintro ⟨hpc, t, ht⟩
        exact ⟨t, hpc.symm, ht⟩
      · rintro ⟨t, hcp, ht⟩
        exact ⟨hcp.symm, t, ht⟩

lemma splitAfterFirst_some_decomp (m : List Char) :
    ∀ s t : List Char, splitAfterFirst m s = some t →
      ∃ a, s = a ++ m ++ t ∧ ∀ a2 b2, s = a2 ++ m ++ b2 → a.length ≤ a2.length := by
  intro s
  induction s with
  | nil =>
    intro t h
    rw [splitAfterFirst] at h
    by_cases hm : m.isEmpty
    · rw [if_pos hm] at h
      obtain rfl : ([] : List Char) = t := Option.some.inj h
      exact ⟨[], by simp [List.isEmpty_iff.mp hm], fun a2 b2 _ => Nat.zero_le _⟩
    · rw [if_neg hm] at h
      exact absurd h (by simp)
  | cons c cs ih =>
    intro t h
    rw [splitAfterFirst] at h
    by_cases hl : leadsWith m (c :: cs) = true
    · rw [if_pos hl] at h
      obtain ⟨u, hu⟩ := (leadsWith_iff m (c :: cs)).mp hl
      obtain rfl : (c :: cs).drop m.length = t := Option.some.inj h
      refine ⟨[], ?_, fun a2 b2 _ => Nat.zero_le _⟩
      rw [hu, List.nil_append, List.drop_left]
    · rw [if_neg hl] at h
      obtain ⟨a, ha, hmin⟩ := ih t h
      refine ⟨c :: a, by rw [List.cons_append, List.cons_append, ← ha], ?_⟩
      intro a2 b2 hab
      cases a2 with
      | nil =>
        refine absurd ((leadsWith_iff m (c :: cs)).mpr ⟨b2, ?_⟩) hl
        simpa using hab
      | cons c2 a3 =>
        have hcs : cs = a3 ++ m ++ b2 := by
          simp only [List.cons_append] at hab
          exact (List.cons.inj hab).2
        simpa using Nat.succ_le_succ (hmin a3 b2 hcs)

lemma splitAfterFirst_none_no_occurrence (m : List Char) :
    ∀ s : List Char, splitAfterFirst m s = none → ∀ a b, s ≠ a ++ m ++ b := by
  intro s
  induction s with
  | nil =>
    intro h a b hab
    rw [splitAfterFirst] at h
    by_cases hm : m.isEmpty
    · rw [if_pos hm] at h
      exact absurd h (by simp)
    · have : m = [] := by
        rcases List.append_eq_nil.mp hab.symm with ⟨h1, h2⟩
        exact (List.append_eq_nil.mp h1).2
      rw [this] at hm
      simp at hm
  | cons c cs ih =>
    intro h a b hab
    rw [splitAfterFirst] at h
    by_cases hl : leadsWith m (c :: cs) = true
    · rw [if_pos hl] at h
      exact absurd h (by simp)
    · rw [if_neg hl] at h
      cases a with
      | nil =>
        refine hl ((leadsWith_iff m (c :: cs)).mpr ⟨b, ?_⟩)
        simpa using hab
      | cons a0 a1 =>
        have : cs = a1 ++ m ++ b := by
          have := hab
          simp only [List.cons_append] at this
          exact (List.cons.inj this).2
        exact ih h a1 b this

/-- C9 counterexample: with the assistant-turn marker absent, the
non-pipelined path does not return the full decoded text: the code strips
surrounding whitespace, so the decoded text consisting of a space and the
letter x comes back as just the letter x. -/
theorem extractResponse_strips_counterexample :
    splitAfterFirst assistantMarker [' ', 'x'] = none ∧
    extractResponse [' ', 'x'] = ['x'] ∧
    extractResponse [' ', 'x'] ≠ [' ', 'x'] := by
  refine ⟨by decide, by decide, by decide⟩

/-- C9 (amended): for every decoded generation output, the extraction step
of the non-pipelined path returns the portion following the first occurrence
of the assistant-turn marker, stripped of leading and trailing whitespace,
when the marker occurs in the text (the decomposition is at the earliest
occurrence: every decomposition of the text at the marker has a longer or
equal portion before it, which pins both the split position and the returned
portion); and the full decoded text stripped of leading and trailing
whitespace when the marker is absent. -/
theorem extractResponse_marker_split (s : List Char) :
    (∃ a b, s = a ++ assistantMarker ++ b ∧
      (∀ a2 b2, s = a2 ++ assistantMarker ++ b2 → a.length ≤ a2.length) ∧
      extractResponse s = pyStrip b) ∨
    ((∀ a b, s ≠ a ++ assistantMarker ++ b) ∧ extractResponse s = pyStrip s) := by
  rcases h : splitAfterFirst assistantMarker s with _ | t
  · exact Or.inr ⟨splitAfterFirst_none_no_occurrence assistantMarker s h,
      by rw [extractResponse, h]; rfl⟩
  · obtain ⟨a, ha, hmin⟩ := splitAfterFirst_some_decomp assistantMarker s t h
    exact Or.inl ⟨a, t, ha, hmin, by rw [extractResponse, h]; rfl⟩

/-! ## ModelManager.load_model (model_manager.py)

load_model loads the model and tokenizer, applies a distribution strategy
when the two configured devices differ (storing the is_sharded flag and the
stage map of the strategy, while the Bool returned by strategy.apply is
bound to an unused local), and returns True; any exception makes it return
False.  We pass the strategy application result in as data: the Bool
component is the value load_model discards.
-/

/-- The state the manager keeps from the applied strategy. -/
structure ManagerState where
  isSharded : Bool
  stages : Option PipelineStages
deriving DecidableEq

/-- Embeds ModelManager.load_model: loadRes is the outcome of
load_model_and_tokenizer, stratSuccess and stratState are the Bool returned
by strategy.apply and the stored strategy results. -/
def loadModel (loadRes : Except Unit Unit) (mainDev secondaryDev : Dev)
    (stratSuccess : Bool) (stratState : ManagerState) : Bool × ManagerState :=
  match loadRes with
  | Except.error _ => (false, ⟨false, none⟩)
  | Except.ok _ =>
    if mainDev = secondaryDev then (true, ⟨false, none⟩)
    else
      (true, stratState)

/-- C10: whenever the model and tokenizer load successfully, load_model
returns True whatever Bool the strategy application reported, and the whole
result is unchanged when that Bool changes: the strategy success value is
discarded. -/
theorem loadModel_discards_strategy_success (mainDev secondaryDev : Dev)
    (b1 b2 : Bool) (st : ManagerState) :
    (loadModel (Except.ok ()) mainDev secondaryDev b1 st).1 = true ∧
    loadModel (Except.ok ()) mainDev secondaryDev b1 st =
      loadModel (Except.ok ()) mainDev secondaryDev b2 st := by
  rw [loadModel]
  by_cases h : mainDev = secondaryDev
  · rw [if_pos h]
    exact ⟨rfl, by rw [loadModel, if_pos h]⟩
  · rw [if_neg h]
    exact ⟨rfl, by rw [loadModel, if_neg h]⟩
